import Mathlib

/-!
Shallow embedding of the symlistow crate (src/symlistow/src/lib.rs):
the executable Verifier (`verify_binary`), the symlink Reconciler
(`handle_symlink`), the interaction policy (`prompt_user_for_replacement`
and the inlined should-replace decision), and the per-path Collector step
(`append_verified_binaries`).

External effects (filesystem existence, process spawning, console input
and output, symlink creation and removal) are modelled as explicit
environment/world records, and the functions return an ordered event
trace recording every attempted effect.
-/

deriving instance DecidableEq for Except

namespace Symlistow

/-- Exit status of the spawned version subcommand: the success flag tested
by the code plus the raw code carried into error reports. -/
structure ExitStatus where
  success : Bool
  code : Int
deriving DecidableEq

/-- Captured output of the spawned process: exit status and raw stdout
bytes (stderr is not captured by the code). -/
structure Output where
  status : ExitStatus
  stdout : List Nat
deriving DecidableEq

/-- An operating-system error, abstracted to its displayed message. -/
abbrev IOErrorMsg := String

/-- The error enum ExecutableVerificationError from the source. -/
inductive ExecutableVerificationError where
  | MissingPath (path : String)
  | VersionCallFail (status : ExitStatus)
  | ExecutionError (e : IOErrorMsg)
deriving DecidableEq

/-- Execution environment of the Verifier: path existence and the result
of spawning a given path with the version argument. -/
structure Env where
  pathExists : String → Bool
  runVersion : String → Except IOErrorMsg Output

/-- Rust char::is_whitespace, the Unicode White_Space property, used by
str::trim. -/
def isRustWhitespace (c : Char) : Bool :=
  c.val = 0x20 || c.val = 0x09 || c.val = 0x0A || c.val = 0x0B ||
  c.val = 0x0C || c.val = 0x0D || c.val = 0x85 || c.val = 0xA0 ||
  c.val = 0x1680 || (0x2000 ≤ c.val && c.val ≤ 0x200A) ||
  c.val = 0x2028 || c.val = 0x2029 || c.val = 0x202F || c.val = 0x205F ||
  c.val = 0x3000

/-- Strip whitespace from both ends of a character list (str::trim). -/
def trimChars (l : List Char) : List Char :=
  List.dropWhile isRustWhitespace ((l.reverse.dropWhile isRustWhitespace).reverse)

/-- Rust str::trim on strings. -/
def rustTrim (s : String) : String :=
  String.mk (trimChars s.data)

/-- The replacement character U+FFFD emitted by lossy decoding. -/
def repl : Char := Char.ofNat 0xFFFD

/-- Is the byte a UTF-8 continuation byte (0x80..0xBF)? -/
def isCont (b : Nat) : Bool := 0x80 ≤ b && b ≤ 0xBF

/-- Lower bound for the second byte of a multi-byte sequence, which is
tighter for the leads 0xE0 and 0xF0 (excluding overlong encodings). -/
def cont2lo (b : Nat) : Nat :=
  if b = 0xE0 then 0xA0 else if b = 0xF0 then 0x90 else 0x80

/-- Upper bound for the second byte, tighter for 0xED (excluding
surrogates) and 0xF4 (capping at U+10FFFF). -/
def cont2hi (b : Nat) : Nat :=
  if b = 0xED then 0x9F else if b = 0xF4 then 0x8F else 0xBF

/-- Is c valid as the second byte of a sequence led by b? -/
def inRange2 (b c : Nat) : Bool := cont2lo b ≤ c && c ≤ cont2hi b

/-- One step of String::from_utf8_lossy: given the lead byte and the
remaining bytes, the decoded character (U+FFFD for a maximal invalid
subpart) and how many bytes beyond the lead were consumed. -/
def nextToken (b : Nat) (rest : List Nat) : Char × Nat :=
  if b < 0x80 then (Char.ofNat b, 0)
  else if b < 0xC2 then (repl, 0)
  else if b < 0xE0 then
    match rest with
    | [] => (repl, 0)
    | c1 :: _ =>
      if isCont c1 then (Char.ofNat ((b - 0xC0) * 0x40 + (c1 - 0x80)), 1)
      else (repl, 0)
  else if b < 0xF0 then
    match rest with
    | [] => (repl, 0)
    | [c1] => if inRange2 b c1 then (repl, 1) else (repl, 0)
    | c1 :: c2 :: _ =>
      if inRange2 b c1 then
        if isCont c2 then
          (Char.ofNat ((b - 0xE0) * 0x1000 + (c1 - 0x80) * 0x40 + (c2 - 0x80)), 2)
        else (repl, 1)
      else (repl, 0)
  else if b < 0xF5 then
    match rest with
    | [] => (repl, 0)
    | [c1] => if inRange2 b c1 then (repl, 1) else (repl, 0)
    | [c1, c2] =>
      if inRange2 b c1 then
        if isCont c2 then (repl, 2) else (repl, 1)
      else (repl, 0)
    | c1 :: c2 :: c3 :: _ =>
      if inRange2 b c1 then
        if isCont c2 then
          if isCont c3 then
            (Char.ofNat ((b - 0xF0) * 0x40000 + (c1 - 0x80) * 0x1000 +
              (c2 - 0x80) * 0x40 + (c3 - 0x80)), 3)
          else (repl, 2)
        else (repl, 1)
      else (repl, 0)
  else (repl, 0)

/-- Decoding loop, structurally recursive on a fuel bound; each step
consumes at least the lead byte, so fuel equal to the list length is
always enough. -/
def utf8DecodeLoop : Nat → List Nat → List Char
  | 0, _ => []
  | _, [] => []
  | fuel + 1, b :: rest =>
    (nextToken b rest).1 :: utf8DecodeLoop fuel (rest.drop (nextToken b rest).2)

/-- String::from_utf8_lossy: decode a byte list, replacing each maximal
invalid subpart with U+FFFD. -/
def decodeUtf8Lossy (l : List Nat) : List Char :=
  utf8DecodeLoop l.length l

/-- verify_binary from the source: fail fast when the path does not
exist, then spawn the version subcommand; on a successful exit, return
the lossily decoded, trimmed stdout. -/
def verify_binary (env : Env) (binary_path : String) :
    Except ExecutableVerificationError String :=
  if !env.pathExists binary_path then
    .error (.MissingPath binary_path)
  else
    match env.runVersion binary_path with
    | .ok output =>
      if output.status.success then
        .ok (rustTrim (String.mk (decodeUtf8Lossy output.stdout)))
      else
        .error (.VersionCallFail output.status)
    | .error e => .error (.ExecutionError e)

/-- The ExecutableBin record from the source. -/
structure ExecutableBin where
  path : String
  version_report : String
deriving DecidableEq

/-- ExecutableBin::new from the source: verify the candidate and store
its path together with the reported version. -/
def ExecutableBin.new (env : Env) (candidate : String) :
    Except ExecutableVerificationError ExecutableBin :=
  match verify_binary env candidate with
  | .ok v => .ok ⟨candidate, v⟩
  | .error e => .error e

lemma utf8DecodeLoop_congr :
    ∀ (n m : Nat) (l : List Nat), l.length ≤ n → l.length ≤ m →
      utf8DecodeLoop n l = utf8DecodeLoop m l := by
  intro n
  induction n with
  | zero =>
    intro m l hn _
    have hl : l = [] := List.eq_nil_of_length_eq_zero (Nat.le_zero.mp hn)
    subst hl
    cases m <;> rfl
  | succ n ih =>
    intro m l hn hm
    cases l with
    | nil => cases m <;> rfl
    | cons b rest =>
      cases m with
      | zero => simp at hm
      | succ m =>
        simp only [utf8DecodeLoop]
        congr 1
        apply ih
        · simp only [List.length_drop]
          simp only [List.length_cons] at hn
          omega
        · simp only [List.length_drop]
          simp only [List.length_cons] at hm
          omega

lemma decode_nil : decodeUtf8Lossy [] = [] := rfl

lemma decode_cons (b : Nat) (rest : List Nat) :
    decodeUtf8Lossy (b :: rest) =
      (nextToken b rest).1 :: decodeUtf8Lossy (rest.drop (nextToken b rest).2) := by
  unfold decodeUtf8Lossy
  simp only [List.length_cons, utf8DecodeLoop]
  congr 1
  apply utf8DecodeLoop_congr
  · simp only [List.length_drop]
    omega
  · exact Nat.le_refl _

lemma inRange2_false_of_not_cont (b : Nat) {c : Nat} (hc : isCont c = false) :
    inRange2 b c = false := by
  simp only [isCont, Bool.and_eq_false_imp, decide_eq_true_eq, decide_eq_false_iff_not,
    not_le] at hc
  simp only [inRange2, cont2lo, cont2hi, Bool.and_eq_false_imp, decide_eq_true_eq,
    decide_eq_false_iff_not, not_le]
  intro h1
  split_ifs <;> split_ifs at h1 <;> omega

lemma nextToken_k_le (b : Nat) (rest : List Nat) :
    (nextToken b rest).2 ≤ rest.length := by
  rcases rest with _ | ⟨c1, _ | ⟨c2, _ | ⟨c3, r⟩⟩⟩ <;>
    simp only [nextToken] <;> split_ifs <;> simp

lemma nextToken_append (b : Nat) (rest : List Nat) (c : Nat) (t : List Nat)
    (hc : isCont c = false) :
    nextToken b (rest ++ c :: t) = nextToken b rest := by
  have hr1 : inRange2 b c = false := inRange2_false_of_not_cont b hc
  rcases rest with _ | ⟨c1, _ | ⟨c2, _ | ⟨c3, r⟩⟩⟩
  · rcases t with _ | ⟨d1, _ | ⟨d2, t2⟩⟩ <;> simp [nextToken, hc, hr1]
  · rcases t with _ | ⟨d1, t1⟩ <;> simp [nextToken, hc, hr1]
  · simp [nextToken, hc, hr1]
  · simp [nextToken]

lemma decode_append_aux :
    ∀ (n : Nat) (bs : List Nat) (c : Nat) (t : List Nat),
      bs.length ≤ n → isCont c = false →
      decodeUtf8Lossy (bs ++ c :: t) = decodeUtf8Lossy bs ++ decodeUtf8Lossy (c :: t) := by
  intro n
  induction n with
  | zero =>
    intro bs c t hn _
    have hl : bs = [] := List.eq_nil_of_length_eq_zero (Nat.le_zero.mp hn)
    subst hl
    simp [decode_nil]
  | succ n ih =>
    intro bs c t hn hc
    cases bs with
    | nil => simp [decode_nil]
    | cons b rest =>
      rw [List.cons_append, decode_cons, decode_cons b rest,
        nextToken_append b rest c t hc,
        List.drop_append_of_le_length (nextToken_k_le b rest),
        ih (rest.drop (nextToken b rest).2) c t
          (by simp only [List.length_drop]; simp only [List.length_cons] at hn; omega) hc,
        List.cons_append]

lemma decode_append (bs : List Nat) (c : Nat) (t : List Nat) (hc : isCont c = false) :
    decodeUtf8Lossy (bs ++ c :: t) = decodeUtf8Lossy bs ++ decodeUtf8Lossy (c :: t) :=
  decode_append_aux bs.length bs c t (Nat.le_refl _) hc

lemma decode_replicate_nl (k : Nat) :
    decodeUtf8Lossy (List.replicate k 10) = List.replicate k (Char.ofNat 10) := by
  induction k with
  | zero => rfl
  | succ k ih =>
    rw [List.replicate_succ, decode_cons, List.replicate_succ]
    have hnt : nextToken 10 (List.replicate k 10) = (Char.ofNat 10, 0) := by
      simp [nextToken]
    rw [hnt]
    simpa using ih

lemma decode_append_nl (bs : List Nat) (k : Nat) :
    decodeUtf8Lossy (bs ++ List.replicate k 10) =
      decodeUtf8Lossy bs ++ List.replicate k (Char.ofNat 10) := by
  cases k with
  | zero => simp
  | succ k =>
    rw [List.replicate_succ, decode_append bs 10 (List.replicate k 10) (by decide),
      ← List.replicate_succ, decode_replicate_nl]

lemma dropWhile_replicate_append (p : Char → Bool) (a : Char) (h : p a = true)
    (k : Nat) (l : List Char) :
    List.dropWhile p (List.replicate k a ++ l) = List.dropWhile p l := by
  induction k with
  | zero => rfl
  | succ k ih => simp [List.replicate_succ, List.dropWhile_cons, h, ih]

lemma trimChars_append_newlines (l : List Char) (k : Nat) :
    trimChars (l ++ List.replicate k (Char.ofNat 10)) = trimChars l := by
  unfold trimChars
  rw [List.reverse_append, List.reverse_replicate,
    dropWhile_replicate_append isRustWhitespace (Char.ofNat 10) (by decide)]

/-- Claim C1: when the path exists and the spawned version subcommand
succeeds, verify_binary returns Ok with exactly the captured stdout,
lossily decoded as UTF-8 and trimmed of surrounding whitespace; the
result is insensitive to the number of trailing newline bytes in stdout,
and no further parsing of the version string happens. -/
theorem c1_version_is_trimmed_lossy_stdout (env : Env) (p : String) (out : Output)
    (h1 : env.pathExists p = true)
    (h2 : env.runVersion p = .ok out)
    (h3 : out.status.success = true) :
    verify_binary env p = .ok (rustTrim (String.mk (decodeUtf8Lossy out.stdout))) ∧
    ∀ (k : Nat) (env2 : Env) (out2 : Output),
      env2.pathExists p = true → env2.runVersion p = .ok out2 →
      out2.status = out.status →
      out2.stdout = out.stdout ++ List.replicate k 10 →
      verify_binary env2 p = verify_binary env p := by
  constructor
  · simp [verify_binary, h1, h2, h3]
  · intro k env2 out2 g1 g2 g3 g4
    simp only [verify_binary, h1, g1, Bool.not_true, Bool.false_eq_true, if_false, h2, g2,
      g3, h3, if_true, g4]
    rw [decode_append_nl]
    show Except.ok (rustTrim (String.mk (decodeUtf8Lossy out.stdout ++
      List.replicate k (Char.ofNat 10)))) = _
    unfold rustTrim
    rw [show (String.mk (decodeUtf8Lossy out.stdout ++ List.replicate k (Char.ofNat 10))).data
        = decodeUtf8Lossy out.stdout ++ List.replicate k (Char.ofNat 10) from rfl,
      trimChars_append_newlines]

/-- Witness for C1 at a concrete environment: stdout bytes [49] give
version "1", and two extra trailing newline bytes do not change the
result. -/
theorem c1_witness :
    verify_binary ⟨fun _ => true, fun _ => .ok ⟨⟨true, 0⟩, [49]⟩⟩ ("p") = .ok ("1") ∧
    verify_binary ⟨fun _ => true, fun _ => .ok ⟨⟨true, 0⟩, [49, 10, 10]⟩⟩ ("p") =
      verify_binary ⟨fun _ => true, fun _ => .ok ⟨⟨true, 0⟩, [49]⟩⟩ ("p") := by
  have h := c1_version_is_trimmed_lossy_stdout
    ⟨fun _ => true, fun _ => .ok ⟨⟨true, 0⟩, [49]⟩⟩ ("p") ⟨⟨true, 0⟩, [49]⟩ rfl rfl rfl
  constructor
  · rw [h.1]
    decide
  · exact h.2 2 ⟨fun _ => true, fun _ => .ok ⟨⟨true, 0⟩, [49, 10, 10]⟩⟩
      ⟨⟨true, 0⟩, [49, 10, 10]⟩ rfl rfl rfl (by decide)

/-- Claim C2: when nothing exists at the path, verify_binary returns
Err MissingPath carrying that path, and the result does not depend on
the process-spawning part of the environment at all, so no child process
is spawned. -/
theorem c2_missing_path_no_spawn (env : Env) (p : String)
    (h : env.pathExists p = false) :
    verify_binary env p = .error (.MissingPath p) ∧
    ∀ run2 : String → Except IOErrorMsg Output,
      verify_binary ⟨env.pathExists, run2⟩ p = .error (.MissingPath p) := by
  constructor
  · simp [verify_binary, h]
  · intro run2
    simp [verify_binary, h]

/-- Witness for C2 at a concrete environment whose spawner would report
a successful version call: the missing path still wins. -/
theorem c2_witness :
    verify_binary ⟨fun _ => false, fun _ => .ok ⟨⟨true, 0⟩, [49]⟩⟩ ("/gone") =
      .error (.MissingPath ("/gone")) ∧
    verify_binary ⟨fun _ => false, fun _ => .error ("io")⟩ ("/gone") =
      .error (.MissingPath ("/gone")) := by
  have h := c2_missing_path_no_spawn
    ⟨fun _ => false, fun _ => .ok ⟨⟨true, 0⟩, [49]⟩⟩ ("/gone") rfl
  exact ⟨h.1, h.2 (fun _ => .error ("io"))⟩

/-- Claim C3: when the path exists, a spawned process that exits
unsuccessfully makes verify_binary return Err VersionCallFail carrying
exactly that exit status (stdout is dropped), and a failed spawn makes
it return Err ExecutionError carrying the underlying cause. -/
theorem c3_failure_reporting (env : Env) (p : String)
    (h1 : env.pathExists p = true) :
    (∀ out : Output, env.runVersion p = .ok out → out.status.success = false →
      verify_binary env p = .error (.VersionCallFail out.status)) ∧
    (∀ e : IOErrorMsg, env.runVersion p = .error e →
      verify_binary env p = .error (.ExecutionError e)) := by
  constructor
  · intro out h2 h3
    simp [verify_binary, h1, h2, h3]
  · intro e h2
    simp [verify_binary, h1, h2]

/-- Witness for C3 at concrete environments: a non-zero exit status is
carried whole even though stdout was produced, and a spawn error is
carried into ExecutionError. -/
theorem c3_witness :
    verify_binary ⟨fun _ => true, fun _ => .ok ⟨⟨false, 3⟩, [49, 50]⟩⟩ ("p") =
      .error (.VersionCallFail ⟨false, 3⟩) ∧
    verify_binary ⟨fun _ => true, fun _ => .error ("denied")⟩ ("p") =
      .error (.ExecutionError ("denied")) := by
  constructor
  · exact (c3_failure_reporting ⟨fun _ => true, fun _ => .ok ⟨⟨false, 3⟩, [49, 50]⟩⟩
      ("p") rfl).1 ⟨⟨false, 3⟩, [49, 50]⟩ rfl rfl
  · exact (c3_failure_reporting ⟨fun _ => true, fun _ => .error ("denied")⟩
      ("p") rfl).2 ("denied") rfl

/-- Observable effects in trace order: console lines, filesystem
mutation attempts (carrying the outcome the world assigned them), and
reads of one line from standard input. -/
inductive Event where
  | printOut (s : String)
  | printErr (s : String)
  | removeFile (path : String) (result : Except IOErrorMsg Unit)
  | createSymlink (source link : String) (result : Except IOErrorMsg Unit)
  | readLine
deriving DecidableEq

/-- Does the event attempt a filesystem mutation? -/
def Event.mutatesFs : Event → Bool
  | .removeFile _ _ => true
  | .createSymlink _ _ _ => true
  | _ => false

/-- Is the event a symlink-creation attempt? -/
def Event.isCreate : Event → Bool
  | .createSymlink _ _ _ => true
  | _ => false

/-- Displayed form of the verification error, from the thiserror
attributes in the source. -/
def ExecutableVerificationError.display : ExecutableVerificationError → String
  | .MissingPath p => "Path doesn\x27t exist: " ++ p
  | .VersionCallFail st => "Failed call to --version, got exit status: " ++ toString st.code
  | .ExecutionError e => "Binary did not execute successfully: " ++ e

/-- The world handle_symlink runs against: the verification environment,
the outcomes the filesystem assigns to the one removal and the one
symlink creation the call can attempt, and the operator input lines. -/
structure World where
  env : Env
  removeResult : Except IOErrorMsg Unit
  symlinkResult : Except IOErrorMsg Unit
  stdinLines : List String

/-- Rust str::to_lowercase restricted to ASCII letters; the accepted
answers are ASCII and no non-ASCII character lowercases to an ASCII
letter, so the restriction is invisible to the match below. -/
def rustToLowercase (s : String) : String :=
  String.mk (s.data.map Char.toLower)

/-- The prompt printed before each read of an answer line. -/
def promptEvents : List Event :=
  [.printOut ("Replace existing with new? [Y/n]: "), .readLine]

/-- The loop of prompt_user_for_replacement from the source: read a
line, trim and lowercase it, accept empty, y or yes, refuse n or no,
otherwise report invalid input and repeat. Exhausted input models end
of input, where read_line leaves the buffer empty and the empty answer
is accepted. -/
def promptLoop : List String → Bool × List Event
  | [] => (true, promptEvents)
  | line :: rest =>
    let input := rustToLowercase (rustTrim line)
    if input = "" || input = "y" || input = "yes" then (true, promptEvents)
    else if input = "n" || input = "no" then (false, promptEvents)
    else
      ((promptLoop rest).1,
        promptEvents ++
          Event.printOut ("Invalid input. Please enter \x27y\x27 for yes or \x27n\x27 for no.") ::
          (promptLoop rest).2)

/-- prompt_user_for_replacement from the source: present both versions,
then run the accept/refuse loop over the input lines. -/
def prompt_user_for_replacement (binary_name existing_version new_version : String)
    (lines : List String) : Bool × List Event :=
  ((promptLoop lines).1,
    Event.printOut ("\n" ++ binary_name ++ " version mismatch detected:") ::
    Event.printOut ("  Existing: " ++ existing_version) ::
    Event.printOut ("  New:      " ++ new_version) ::
    (promptLoop lines).2)

/-- The replace decision inlined in handle_symlink: non-interactive mode
forces replacement after a notice; interactive mode asks the operator. -/
def should_replace (binary_name existing_version new_version : String)
    (interactive : Bool) (lines : List String) : Bool × List Event :=
  if !interactive then
    (true, [.printOut ("Non-interactive mode: forcing replacement of " ++ binary_name)])
  else
    prompt_user_for_replacement binary_name existing_version new_version lines

/-- Attempt to create the symlink and report the outcome: the shared
tail of the three creation sites in handle_symlink. -/
def createAndReport (result : Except IOErrorMsg Unit)
    (source_path link_path binary_name success_msg : String) : List Event :=
  Event.createSymlink source_path link_path result ::
    (match result with
     | .error e =>
       [Event.printErr ("Error: Failed to create " ++ binary_name ++ " symlink: " ++ e)]
     | .ok _ => [Event.printOut (success_msg)])

/-- handle_symlink from the source: when the link path exists, verify
it; equal versions are a no-op, differing versions consult the replace
decision and on replacement remove then recreate (a removal failure
returns early), and a failed verification is repaired by a best-effort
removal followed by an unconditional creation. Absent link paths get
the symlink created directly. -/
def handle_symlink (w : World) (link_path source_path binary_name source_version : String)
    (interactive : Bool) : List Event :=
  if w.env.pathExists link_path then
    match verify_binary w.env link_path with
    | .ok existing_version =>
      if existing_version = source_version then
        [.printOut ("✓ " ++ binary_name ++ " symlink already exists with same version")]
      else
        let decision :=
          should_replace binary_name existing_version source_version interactive w.stdinLines
        if decision.1 then
          decision.2 ++
            Event.printOut ("Replacing " ++ binary_name ++ " symlink...") ::
            Event.removeFile link_path w.removeResult ::
            (match w.removeResult with
             | .error e =>
               [Event.printErr ("Error: Failed to remove existing " ++ binary_name ++ ": " ++ e)]
             | .ok _ =>
               createAndReport w.symlinkResult source_path link_path binary_name
                 ("✓ " ++ binary_name ++ " symlink replaced successfully"))
        else
          decision.2 ++ [Event.printOut ("Keeping existing " ++ binary_name ++ " symlink")]
    | .error e =>
      Event.printErr ("Warning: Existing " ++ binary_name ++ " is invalid: " ++ e.display) ::
      Event.printErr ("Removing and recreating symlink...") ::
      Event.removeFile link_path w.removeResult ::
      createAndReport w.symlinkResult source_path link_path binary_name
        ("✓ " ++ binary_name ++ " symlink created successfully")
  else
    Event.printOut ("Creating symlink for " ++ binary_name ++ "...") ::
    createAndReport w.symlinkResult source_path link_path binary_name
      ("✓ " ++ binary_name ++ " symlink created successfully")

/-- Replay one mutation attempt on a path-existence map: a successful
removal clears the link path, a successful creation sets its link path,
console events and failed attempts change nothing. -/
def applyEvent (fs : String → Bool) : Event → String → Bool
  | .removeFile p (.ok _) => fun q => if q = p then false else fs q
  | .createSymlink _ l (.ok _) => fun q => if q = l then true else fs q
  | _ => fs

/-- Replay a whole trace on a path-existence map. -/
def applyTrace (fs : String → Bool) (t : List Event) : String → Bool :=
  t.foldl applyEvent fs

lemma promptLoop_cons (line : String) (rest : List String) :
    promptLoop (line :: rest) =
      if rustToLowercase (rustTrim line) = "" || rustToLowercase (rustTrim line) = "y" ||
          rustToLowercase (rustTrim line) = "yes" then (true, promptEvents)
      else if rustToLowercase (rustTrim line) = "n" ||
          rustToLowercase (rustTrim line) = "no" then (false, promptEvents)
      else
        ((promptLoop rest).1,
          promptEvents ++
            Event.printOut ("Invalid input. Please enter \x27y\x27 for yes or \x27n\x27 for no.") ::
            (promptLoop rest).2) := rfl

lemma promptEvents_pure : ∀ e ∈ promptEvents, Event.mutatesFs e = false := by
  intro e he
  simp only [promptEvents, List.mem_cons, List.not_mem_nil, or_false] at he
  rcases he with rfl | rfl <;> rfl

lemma promptLoop_pure (lines : List String) :
    ∀ e ∈ (promptLoop lines).2, Event.mutatesFs e = false := by
  induction lines with
  | nil => exact promptEvents_pure
  | cons line rest ih =>
    intro e he
    rw [promptLoop_cons] at he
    split_ifs at he
    · exact promptEvents_pure e he
    · exact promptEvents_pure e he
    · simp only [List.mem_append, List.mem_cons] at he
      rcases he with h | rfl | h
      · exact promptEvents_pure e h
      · rfl
      · exact ih e h

lemma should_replace_pure (binary_name existing_version new_version : String)
    (interactive : Bool) (lines : List String) :
    ∀ e ∈ (should_replace binary_name existing_version new_version interactive lines).2,
      Event.mutatesFs e = false := by
  intro e he
  simp only [should_replace] at he
  split_ifs at he
  · simp only [List.mem_cons, List.not_mem_nil, or_false] at he
    subst he
    rfl
  · simp only [prompt_user_for_replacement, List.mem_cons] at he
    rcases he with rfl | rfl | rfl | h
    · rfl
    · rfl
    · rfl
    · exact promptLoop_pure lines e h

lemma applyTrace_pure (fs : String → Bool) (t : List Event)
    (h : ∀ e ∈ t, Event.mutatesFs e = false) : applyTrace fs t = fs := by
  induction t generalizing fs with
  | nil => rfl
  | cons e t ih =>
    have he : Event.mutatesFs e = false := h e (List.mem_cons_self e t)
    have h2 : applyEvent fs e = fs := by
      cases e with
      | printOut s => rfl
      | printErr s => rfl
      | readLine => rfl
      | removeFile p r =>
        cases r with
        | ok u => simp [Event.mutatesFs] at he
        | error m => rfl
      | createSymlink s l r =>
        cases r with
        | ok u => simp [Event.mutatesFs] at he
        | error m => rfl
    show List.foldl applyEvent (applyEvent fs e) t = fs
    rw [h2]
    exact ih fs (fun x hx => h x (List.mem_cons_of_mem e hx))

lemma countP_isCreate_zero (t : List Event)
    (h : ∀ e ∈ t, Event.mutatesFs e = false) :
    t.countP Event.isCreate = 0 := by
  rw [List.countP_eq_zero]
  intro e he
  have hm := h e he
  cases e <;> simp_all [Event.isCreate, Event.mutatesFs]

/-- Claim C4: when the link exists and verifies to exactly the source
version, handle_symlink only reports that the symlink is already up to
date: the trace holds no filesystem mutation, replaying it leaves the
path-existence map unchanged, and a second call on the replayed world
produces the identical trace. -/
theorem c4_idempotent_when_version_matches (w : World)
    (link_path source_path binary_name source_version : String) (interactive : Bool)
    (h1 : w.env.pathExists link_path = true)
    (h2 : verify_binary w.env link_path = .ok source_version) :
    handle_symlink w link_path source_path binary_name source_version interactive =
      [.printOut ("✓ " ++ binary_name ++ " symlink already exists with same version")] ∧
    (∀ e ∈ handle_symlink w link_path source_path binary_name source_version interactive,
      Event.mutatesFs e = false) ∧
    applyTrace w.env.pathExists
        (handle_symlink w link_path source_path binary_name source_version interactive) =
      w.env.pathExists ∧
    handle_symlink
        ⟨⟨applyTrace w.env.pathExists
            (handle_symlink w link_path source_path binary_name source_version interactive),
          w.env.runVersion⟩, w.removeResult, w.symlinkResult, w.stdinLines⟩
        link_path source_path binary_name source_version interactive =
      handle_symlink w link_path source_path binary_name source_version interactive := by
  have ht : handle_symlink w link_path source_path binary_name source_version interactive =
      [.printOut ("✓ " ++ binary_name ++ " symlink already exists with same version")] := by
    simp [handle_symlink, h1, h2]
  have hpure : ∀ e ∈ handle_symlink w link_path source_path binary_name source_version
      interactive, Event.mutatesFs e = false := by
    rw [ht]
    intro e he
    simp only [List.mem_cons, List.not_mem_nil, or_false] at he
    subst he
    rfl
  have happ : applyTrace w.env.pathExists
      (handle_symlink w link_path source_path binary_name source_version interactive) =
      w.env.pathExists := applyTrace_pure _ _ hpure
  refine ⟨ht, hpure, happ, ?_⟩
  rw [happ]

/-- Witness for C4 at a concrete world: an existing link verifying as
"1" against source version "1" only prints the up-to-date line. -/
theorem c4_witness :
    handle_symlink
        ⟨⟨fun _ => true, fun _ => .ok ⟨⟨true, 0⟩, [49]⟩⟩, .ok (), .ok (), []⟩
        ("/l") ("/s") ("b") ("1") true =
      [.printOut ("✓ b symlink already exists with same version")] := by
  have h := c4_idempotent_when_version_matches
    ⟨⟨fun _ => true, fun _ => .ok ⟨⟨true, 0⟩, [49]⟩⟩, .ok (), .ok (), []⟩
    ("/l") ("/s") ("b") ("1") true rfl (by decide)
  rw [h.1]
  decide

/-- Claim C5: in the explicit replace path (link verified, versions
differ, replacement decided), a removal failure ends the call with no
creation attempt and the old link still in place, while a creation
failure after a successful removal is reported once, with exactly one
creation attempt and the link path left absent. -/
theorem c5_replace_failure_modes (w : World)
    (link_path source_path binary_name source_version existing_version : String)
    (interactive : Bool)
    (h1 : w.env.pathExists link_path = true)
    (h2 : verify_binary w.env link_path = .ok existing_version)
    (h3 : existing_version ≠ source_version)
    (h4 : (should_replace binary_name existing_version source_version interactive
      w.stdinLines).1 = true) :
    (∀ e, w.removeResult = .error e →
      handle_symlink w link_path source_path binary_name source_version interactive =
        (should_replace binary_name existing_version source_version interactive
            w.stdinLines).2 ++
          Event.printOut ("Replacing " ++ binary_name ++ " symlink...") ::
          Event.removeFile link_path (.error e) ::
          [Event.printErr ("Error: Failed to remove existing " ++ binary_name ++ ": " ++ e)] ∧
      (handle_symlink w link_path source_path binary_name source_version
          interactive).countP Event.isCreate = 0 ∧
      applyTrace w.env.pathExists
          (handle_symlink w link_path source_path binary_name source_version interactive) =
        w.env.pathExists) ∧
    (∀ e, w.removeResult = .ok () → w.symlinkResult = .error e →
      handle_symlink w link_path source_path binary_name source_version interactive =
        (should_replace binary_name existing_version source_version interactive
            w.stdinLines).2 ++
          Event.printOut ("Replacing " ++ binary_name ++ " symlink...") ::
          Event.removeFile link_path (.ok ()) ::
          Event.createSymlink source_path link_path (.error e) ::
          [Event.printErr ("Error: Failed to create " ++ binary_name ++ " symlink: " ++ e)] ∧
      (handle_symlink w link_path source_path binary_name source_version
          interactive).countP Event.isCreate = 1 ∧
      applyTrace w.env.pathExists
          (handle_symlink w link_path source_path binary_name source_version interactive)
        link_path = false) := by
  constructor
  · intro e hrem
    have ht : handle_symlink w link_path source_path binary_name source_version interactive =
        (should_replace binary_name existing_version source_version interactive
            w.stdinLines).2 ++
          Event.printOut ("Replacing " ++ binary_name ++ " symlink...") ::
          Event.removeFile link_path (.error e) ::
          [Event.printErr ("Error: Failed to remove existing " ++ binary_name ++ ": " ++ e)] := by
      simp [handle_symlink, h1, h2, h3, h4, hrem]
    refine ⟨ht, ?_, ?_⟩
    · rw [ht, List.countP_append,
        countP_isCreate_zero _ (should_replace_pure binary_name existing_version
          source_version interactive w.stdinLines)]
      simp [Event.isCreate]
    · rw [ht]
      show List.foldl applyEvent w.env.pathExists _ = _
      rw [List.foldl_append,
        show List.foldl applyEvent w.env.pathExists
            (should_replace binary_name existing_version source_version interactive
              w.stdinLines).2 = w.env.pathExists from
          applyTrace_pure _ _ (should_replace_pure binary_name existing_version
            source_version interactive w.stdinLines)]
      rfl
  · intro e hrem hsym
    have ht : handle_symlink w link_path source_path binary_name source_version interactive =
        (should_replace binary_name existing_version source_version interactive
            w.stdinLines).2 ++
          Event.printOut ("Replacing " ++ binary_name ++ " symlink...") ::
          Event.removeFile link_path (.ok ()) ::
          Event.createSymlink source_path link_path (.error e) ::
          [Event.printErr ("Error: Failed to create " ++ binary_name ++ " symlink: " ++ e)] := by
      simp [handle_symlink, createAndReport, h1, h2, h3, h4, hrem, hsym]
    refine ⟨ht, ?_, ?_⟩
    · rw [ht, List.countP_append,
        countP_isCreate_zero _ (should_replace_pure binary_name existing_version
          source_version interactive w.stdinLines)]
      simp [Event.isCreate]
    · rw [ht]
      show List.foldl applyEvent w.env.pathExists _ link_path = _
      rw [List.foldl_append,
        show List.foldl applyEvent w.env.pathExists
            (should_replace binary_name existing_version source_version interactive
              w.stdinLines).2 = w.env.pathExists from
          applyTrace_pure _ _ (should_replace_pure binary_name existing_version
            source_version interactive w.stdinLines)]
      show applyEvent (applyEvent w.env.pathExists
        (Event.removeFile link_path (.ok ())))
        (Event.createSymlink source_path link_path (.error e)) link_path = false
      simp [applyEvent]

/-- Witness for C5 at concrete worlds in non-interactive mode: a failed
removal yields exactly the notice, the replacing line, the failed
removal attempt and its error report; a failed creation after a
successful removal yields exactly one creation attempt and its error
report. -/
theorem c5_witness :
    handle_symlink
        ⟨⟨fun _ => true, fun _ => .ok ⟨⟨true, 0⟩, [49]⟩⟩, .error ("rmfail"), .ok (), []⟩
        ("/l") ("/s") ("b") ("2") false =
      [.printOut ("Non-interactive mode: forcing replacement of b"),
       .printOut ("Replacing b symlink..."),
       .removeFile ("/l") (.error ("rmfail")),
       .printErr ("Error: Failed to remove existing b: rmfail")] ∧
    handle_symlink
        ⟨⟨fun _ => true, fun _ => .ok ⟨⟨true, 0⟩, [49]⟩⟩, .ok (), .error ("mkfail"), []⟩
        ("/l") ("/s") ("b") ("2") false =
      [.printOut ("Non-interactive mode: forcing replacement of b"),
       .printOut ("Replacing b symlink..."),
       .removeFile ("/l") (.ok ()),
       .createSymlink ("/s") ("/l") (.error ("mkfail")),
       .printErr ("Error: Failed to create b symlink: mkfail")] := by
  constructor
  · have h := (c5_replace_failure_modes
      ⟨⟨fun _ => true, fun _ => .ok ⟨⟨true, 0⟩, [49]⟩⟩, .error ("rmfail"), .ok (), []⟩
      ("/l") ("/s") ("b") ("2") ("1") false rfl (by decide) (by decide) (by decide)).1
      ("rmfail") rfl
    rw [h.1]
    decide
  · have h := ((c5_replace_failure_modes
      ⟨⟨fun _ => true, fun _ => .ok ⟨⟨true, 0⟩, [49]⟩⟩, .ok (), .error ("mkfail"), []⟩
      ("/l") ("/s") ("b") ("2") ("1") false rfl (by decide) (by decide) (by decide)).2)
      ("mkfail") rfl rfl
    rw [h.1]
    decide

/-- Claim C6: when the link exists but fails verification with any
error kind, handle_symlink warns, attempts a best-effort removal whose
outcome is ignored, and unconditionally attempts to create the new
symlink; the trace is the same for every interactive flag, every
removal outcome and every operator input. -/
theorem c6_repair_branch (w : World)
    (link_path source_path binary_name source_version : String)
    (err : ExecutableVerificationError)
    (h1 : w.env.pathExists link_path = true)
    (h2 : verify_binary w.env link_path = .error err) :
    ∀ (interactive : Bool) (r : Except IOErrorMsg Unit) (lines : List String),
      handle_symlink ⟨w.env, r, w.symlinkResult, lines⟩
          link_path source_path binary_name source_version interactive =
        Event.printErr ("Warning: Existing " ++ binary_name ++ " is invalid: " ++
            err.display) ::
        Event.printErr ("Removing and recreating symlink...") ::
        Event.removeFile link_path r ::
        createAndReport w.symlinkResult source_path link_path binary_name
          ("✓ " ++ binary_name ++ " symlink created successfully") ∧
      Event.createSymlink source_path link_path w.symlinkResult ∈
        handle_symlink ⟨w.env, r, w.symlinkResult, lines⟩
          link_path source_path binary_name source_version interactive := by
  intro interactive r lines
  have ht : handle_symlink ⟨w.env, r, w.symlinkResult, lines⟩
      link_path source_path binary_name source_version interactive =
      Event.printErr ("Warning: Existing " ++ binary_name ++ " is invalid: " ++
          err.display) ::
      Event.printErr ("Removing and recreating symlink...") ::
      Event.removeFile link_path r ::
      createAndReport w.symlinkResult source_path link_path binary_name
        ("✓ " ++ binary_name ++ " symlink created successfully") := by
    simp [handle_symlink, h1, h2]
  refine ⟨ht, ?_⟩
  rw [ht]
  simp [createAndReport]

/-- Witness for C6 at a concrete world whose link spawns with an I/O
error: with the interactive flag set, a failing removal and operator
input all present, the repair still removes and recreates with the
same reports. -/
theorem c6_witness :
    handle_symlink
        ⟨⟨fun _ => true, fun _ => .error ("ioerr")⟩, .error ("rmfail"), .ok (), [("n")]⟩
        ("/l") ("/s") ("b") ("2") true =
      [.printErr ("Warning: Existing b is invalid: Binary did not execute successfully: ioerr"),
       .printErr ("Removing and recreating symlink..."),
       .removeFile ("/l") (.error ("rmfail")),
       .createSymlink ("/s") ("/l") (.ok ()),
       .printOut ("✓ b symlink created successfully")] := by
  have h := c6_repair_branch
    ⟨⟨fun _ => true, fun _ => .error ("ioerr")⟩, .ok (), .ok (), []⟩
    ("/l") ("/s") ("b") ("2") (.ExecutionError ("ioerr")) rfl (by decide)
    true (.error ("rmfail")) [("n")]
  rw [h.1]
  decide

lemma promptLoop_accept (line : String) (rest : List String)
    (h : rustToLowercase (rustTrim line) = "" ∨ rustToLowercase (rustTrim line) = "y" ∨
      rustToLowercase (rustTrim line) = "yes") :
    promptLoop (line :: rest) = (true, promptEvents) := by
  rw [promptLoop_cons]
  have hc : (rustToLowercase (rustTrim line) = "" || rustToLowercase (rustTrim line) = "y" ||
      rustToLowercase (rustTrim line) = "yes") = true := by
    rcases h with h | h | h <;> rw [h] <;> decide
  rw [if_pos hc]

lemma promptLoop_refuse (line : String) (rest : List String)
    (h : rustToLowercase (rustTrim line) = "n" ∨ rustToLowercase (rustTrim line) = "no") :
    promptLoop (line :: rest) = (false, promptEvents) := by
  rw [promptLoop_cons]
  have h1 : (rustToLowercase (rustTrim line) = "" || rustToLowercase (rustTrim line) = "y" ||
      rustToLowercase (rustTrim line) = "yes") = false := by
    rcases h with h | h <;> rw [h] <;> decide
  have h2 : (rustToLowercase (rustTrim line) = "n" ||
      rustToLowercase (rustTrim line) = "no") = true := by
    rcases h with h | h <;> rw [h] <;> decide
  rw [if_neg (by simp [h1]), if_pos h2]

lemma promptLoop_invalid (line : String) (rest : List String)
    (g1 : rustToLowercase (rustTrim line) ≠ "")
    (g2 : rustToLowercase (rustTrim line) ≠ "y")
    (g3 : rustToLowercase (rustTrim line) ≠ "yes")
    (g4 : rustToLowercase (rustTrim line) ≠ "n")
    (g5 : rustToLowercase (rustTrim line) ≠ "no") :
    promptLoop (line :: rest) =
      ((promptLoop rest).1,
        promptEvents ++
          Event.printOut ("Invalid input. Please enter \x27y\x27 for yes or \x27n\x27 for no.") ::
          (promptLoop rest).2) := by
  rw [promptLoop_cons]
  have h1 : (rustToLowercase (rustTrim line) = "" || rustToLowercase (rustTrim line) = "y" ||
      rustToLowercase (rustTrim line) = "yes") = false := by
    simp only [Bool.or_eq_false_iff, decide_eq_false_iff_not]
    exact ⟨⟨g1, g2⟩, g3⟩
  have h2 : (rustToLowercase (rustTrim line) = "n" ||
      rustToLowercase (rustTrim line) = "no") = false := by
    simp only [Bool.or_eq_false_iff, decide_eq_false_iff_not]
    exact ⟨g4, g5⟩
  rw [if_neg (by simp [h1]), if_neg (by simp [h2])]

/-- Claim C7: the replace decision always answers yes in non-interactive
mode after printing a notice, for any versions and any input; in
interactive mode it delegates to the prompt loop, which accepts the
first line reading empty, y or yes, refuses n or no, and on any other
line prints an error and asks again. -/
theorem c7_should_replace_policy (binary_name existing_version new_version : String) :
    (∀ lines, should_replace binary_name existing_version new_version false lines =
      (true, [.printOut ("Non-interactive mode: forcing replacement of " ++ binary_name)])) ∧
    (∀ lines, should_replace binary_name existing_version new_version true lines =
      prompt_user_for_replacement binary_name existing_version new_version lines) ∧
    (∀ rest, (promptLoop (("") :: rest)).1 = true) ∧
    (∀ rest, (promptLoop (("y") :: rest)).1 = true) ∧
    (∀ rest, (promptLoop (("yes") :: rest)).1 = true) ∧
    (∀ rest, (promptLoop (("n") :: rest)).1 = false) ∧
    (∀ rest, (promptLoop (("no") :: rest)).1 = false) ∧
    (∀ line rest,
      rustToLowercase (rustTrim line) ≠ "" →
      rustToLowercase (rustTrim line) ≠ "y" →
      rustToLowercase (rustTrim line) ≠ "yes" →
      rustToLowercase (rustTrim line) ≠ "n" →
      rustToLowercase (rustTrim line) ≠ "no" →
      (promptLoop (line :: rest)).1 = (promptLoop rest).1 ∧
      (promptLoop (line :: rest)).2 =
        promptEvents ++
          Event.printOut ("Invalid input. Please enter \x27y\x27 for yes or \x27n\x27 for no.") ::
          (promptLoop rest).2) := by
  refine ⟨fun lines => rfl, fun lines => rfl, ?_, ?_, ?_, ?_, ?_, ?_⟩
  · intro rest
    rw [promptLoop_accept ("") rest (Or.inl (by decide))]
  · intro rest
    rw [promptLoop_accept ("y") rest (Or.inr (Or.inl (by decide)))]
  · intro rest
    rw [promptLoop_accept ("yes") rest (Or.inr (Or.inr (by decide)))]
  · intro rest
    rw [promptLoop_refuse ("n") rest (Or.inl (by decide))]
  · intro rest
    rw [promptLoop_refuse ("no") rest (Or.inr (by decide))]
  · intro line rest g1 g2 g3 g4 g5
    rw [promptLoop_invalid line rest g1 g2 g3 g4 g5]
    exact ⟨rfl, rfl⟩

/-- Witness for C7: non-interactive mode forces replacement on concrete
input, and a concrete invalid line defers to the rest of the input. -/
theorem c7_witness :
    should_replace ("b") ("1") ("2") false [("anything")] =
      (true, [.printOut ("Non-interactive mode: forcing replacement of b")]) ∧
    (promptLoop [("x"), ("n")]).1 = (promptLoop [("n")]).1 := by
  have h := c7_should_replace_policy ("b") ("1") ("2")
  constructor
  · rw [h.1 [("anything")]]
    decide
  · exact (h.2.2.2.2.2.2.2 ("x") [("n")] (by decide) (by decide) (by decide) (by decide)
      (by decide)).1

/-- Claim C10: the prompt trims surrounding whitespace and lowercases
each input line before matching, so every line normalizing to an
accepted answer yields that answer instead of a re-prompt. -/
theorem c10_prompt_normalizes_input (line : String) (rest : List String) :
    (rustToLowercase (rustTrim line) = "" ∨ rustToLowercase (rustTrim line) = "y" ∨
        rustToLowercase (rustTrim line) = "yes" →
      (promptLoop (line :: rest)).1 = true) ∧
    (rustToLowercase (rustTrim line) = "n" ∨ rustToLowercase (rustTrim line) = "no" →
      (promptLoop (line :: rest)).1 = false) := by
  constructor
  · intro h
    rw [promptLoop_accept line rest h]
  · intro h
    rw [promptLoop_refuse line rest h]

/-- Witness for C10 at concrete case and whitespace variants of the
accepted answers. -/
theorem c10_witness :
    (promptLoop [("Y")]).1 = true ∧
    (promptLoop [("YES")]).1 = true ∧
    (promptLoop [(" No ")]).1 = false := by
  refine ⟨?_, ?_, ?_⟩
  · exact (c10_prompt_normalizes_input ("Y") []).1 (Or.inr (Or.inl (by decide)))
  · exact (c10_prompt_normalizes_input ("YES") []).1 (Or.inr (Or.inr (by decide)))
  · exact (c10_prompt_normalizes_input (" No ") []).2 (Or.inr (by decide))

/-- Split a character list into the slash-separated groups. -/
def splitSlash : List Char → List (List Char)
  | [] => [[]]
  | c :: rest =>
    if c = '/' then [] :: splitSlash rest
    else
      match splitSlash rest with
      | [] => [[c]]
      | g :: gs => (c :: g) :: gs

/-- Path::file_name modelled on POSIX paths: the last normal component;
none when the path is root, empty, or ends in a parent-directory
component. Empty and current-directory components are skipped, as in
the Rust components iterator. -/
def fileName (p : String) : Option String :=
  match ((splitSlash p.data).filter
      (fun g => !(g.isEmpty) && !(g = ['.']))).reverse with
  | [] => none
  | g :: _ => if g = ['.', '.'] then none else some (String.mk g)

/-- The display-name derivation in append_verified_binaries:
file_name().and_then(to_str) with the literal fallback string. -/
def displayName (p : String) : String :=
  (fileName p).getD ("no_basename")

/-- append_verified_binaries from the source: derive the display name,
verify the path; on success print a confirmation, append (name,
version) and return true; on failure print the error, append nothing
and return false. -/
def append_verified_binaries (env : Env) (path : String)
    (versions : List (String × String)) : Bool × List (String × String) × List Event :=
  match verify_binary env path with
  | .ok version =>
    (true, versions ++ [(displayName path, version)],
      [.printOut ("✓ " ++ displayName path ++ ": " ++ version)])
  | .error e => (false, versions, [.printErr ("✗ " ++ e.display)])

/-- Modelled from the spec: the batch Collector loop that walks the
candidate list is not under src (only the per-path
append_verified_binaries step is); per the spec it invokes the verifier
per candidate in input order and never aborts on an individual
failure. -/
def collect (env : Env) (paths : List String) (versions : List (String × String)) :
    List (String × String) × List Event :=
  match paths with
  | [] => (versions, [])
  | p :: rest =>
    ((collect env rest (append_verified_binaries env p versions).2.1).1,
      (append_verified_binaries env p versions).2.2 ++
        (collect env rest (append_verified_binaries env p versions).2.1).2)

lemma collect_appends_verified (env : Env) (paths : List String)
    (versions : List (String × String)) :
    (collect env paths versions).1 =
      versions ++ paths.filterMap (fun p =>
        match verify_binary env p with
        | .ok v => some (displayName p, v)
        | .error _ => none) := by
  induction paths generalizing versions with
  | nil => simp [collect]
  | cons p rest ih =>
    simp only [collect]
    rw [ih]
    cases hv : verify_binary env p with
    | ok v => simp [append_verified_binaries, hv, List.filterMap_cons]
    | error e => simp [append_verified_binaries, hv, List.filterMap_cons]

/-- Claim C8: the Collector evaluated at three candidates where the
second is missing. Processing continues past the failure and the
successful verifications are appended in input order, but each appended
pair's first component is the final path component, not the candidate
path, although the doc comment of append_verified_binaries says the
collected information is (path, version). -/
theorem c8_collector_at_failing_input :
    collect
        ⟨fun p => !(p = "/a/two"),
         fun p => if p = "/a/one" then .ok ⟨⟨true, 0⟩, [49]⟩ else .ok ⟨⟨true, 0⟩, [51]⟩⟩
        [("/a/one"), ("/a/two"), ("/a/three")] [] =
      ([(("one"), ("1")), (("three"), ("3"))],
       [.printOut ("✓ one: 1"),
        .printErr ("✗ Path doesn\x27t exist: /a/two"),
        .printOut ("✓ three: 3")]) ∧
    (("one") : String) ≠ ("/a/one") := by
  constructor
  · decide
  · decide

/-- Claim C9 counterexample: a path with no extractable final component
is displayed under the literal fallback name, not under the full path
string the claim asserts. -/
theorem c9_counterexample :
    (append_verified_binaries
        ⟨fun _ => true, fun _ => .ok ⟨⟨true, 0⟩, [49]⟩⟩ ("/") []).2.1 =
      [(("no_basename"), ("1"))] ∧
    ¬ (append_verified_binaries
        ⟨fun _ => true, fun _ => .ok ⟨⟨true, 0⟩, [49]⟩⟩ ("/") []).2.1 =
      [(("/"), ("1"))] := by
  constructor
  · decide
  · decide

/-- Claim C9 amended: the Collector derives the display name from the
path's final path component, and when no component can be extracted it
falls back to the literal string no_basename rather than the full path
string. -/
theorem c9_display_name_derivation (env : Env) (path : String)
    (versions : List (String × String)) (v : String)
    (h : verify_binary env path = .ok v) :
    (append_verified_binaries env path versions).2.1 =
      versions ++ [(displayName path, v)] ∧
    (∀ q n, fileName q = some n → displayName q = n) ∧
    (∀ q, fileName q = none → displayName q = ("no_basename")) := by
  refine ⟨?_, ?_, ?_⟩
  · simp [append_verified_binaries, h]
  · intro q n hq
    simp [displayName, hq]
  · intro q hq
    simp [displayName, hq]

/-- Witness for C9 at concrete inputs: a normal path is displayed under
its basename, and a path ending in a parent component falls back. -/
theorem c9_witness :
    (append_verified_binaries ⟨fun _ => true, fun _ => .ok ⟨⟨true, 0⟩, [49]⟩⟩
        ("/usr/bin/tool") []).2.1 = [(("tool"), ("1"))] ∧
    displayName ("..") = ("no_basename") := by
  have h := c9_display_name_derivation
    ⟨fun _ => true, fun _ => .ok ⟨⟨true, 0⟩, [49]⟩⟩ ("/usr/bin/tool") [] ("1") (by decide)
  constructor
  · rw [h.1]
    decide
  · exact h.2.2 ("..") (by decide)

end Symlistow
